import Mathlib

/-!
The package geoip: a country gate for HTTP requests.

A shallow embedding of `geoip.go` (package `geoip`) and the properties of its
request pipeline (`ServeHTTP`, `getClientIP`, `terminateConnection`), of its
constructor (`New`) and of its database refresh (`loadDatabase`,
`updateDatabase`).

Go strings are byte sequences.  The functions of Go's standard library and of
the geolocation library the package calls (`net.ParseIP`, `net.SplitHostPort`,
`time.ParseDuration`, the canonical form of a header name, the contents of a
database file) are parameters of the model, collected in `Lib`, or inputs of
the operation that consults them.
-/

set_option maxRecDepth 8000

namespace Geoip

/-! ## Go strings -/

/-- One byte of a Go string. -/
abbrev Byte := Fin 256

/-- A Go `string`: an immutable sequence of bytes. -/
abbrev GoString := List Byte

/-- The UTF-8 encoding of a code point, as the Go conversion `string(r)` of an
integer `r` produces it: values outside the Unicode range and surrogate halves
become U+FFFD. -/
def encodeRune (r : Nat) : GoString :=
  if r < 0x80 then [Fin.ofNat r]
  else if r < 0x800 then [Fin.ofNat (0xC0 + r / 64), Fin.ofNat (0x80 + r % 64)]
  else if r > 0x10FFFF ∨ (0xD800 ≤ r ∧ r ≤ 0xDFFF) then [0xEF, 0xBF, 0xBD]
  else if r < 0x10000 then
    [Fin.ofNat (0xE0 + r / 4096), Fin.ofNat (0x80 + r / 64 % 64), Fin.ofNat (0x80 + r % 64)]
  else
    [Fin.ofNat (0xF0 + r / 262144), Fin.ofNat (0x80 + r / 4096 % 64),
     Fin.ofNat (0x80 + r / 64 % 64), Fin.ofNat (0x80 + r % 64)]

/-- The bytes of a string literal of the source. -/
def str (s : String) : GoString :=
  s.toList.flatMap (fun c => encodeRune c.toNat)

/-- The Go conversion `string(b)` of a byte `b`: the UTF-8 encoding of the code
point whose number is `b`. -/
def stringOfByte (b : Byte) : GoString :=
  encodeRune b.val

/-- A Go `error` value, carrying its message. -/
structure GoError where
  msg : GoString
  deriving DecidableEq, Repr

/-- A `net.IP`: a byte slice. -/
abbrev IP := List Byte

/-! ## The libraries the package calls -/

/-- The library functions the package calls on strings. -/
structure Lib where
  /-- The function `textproto.CanonicalMIMEHeaderKey`. -/
  canonicalMIMEHeaderKey : GoString → GoString
  /-- The function `net.SplitHostPort`: host and port, or an error. -/
  splitHostPort : GoString → Except GoError (GoString × GoString)
  /-- The function `net.ParseIP`: `none` stands for the nil address. -/
  parseIP : GoString → Option IP
  /-- The function `time.ParseDuration`: nanoseconds, or an error. -/
  parseDuration : GoString → Except GoError Int

/-! ## Requests -/

/-- An `http.Header`, a `map[string][]string`: the entries of the map, a key
being looked up from the front. -/
abbrev Header := List (GoString × List GoString)

/-- The values a header map stores under `key`: the nil slice when the key is
not in the map. -/
def Header.values : Header → GoString → List GoString
  | [], _ => []
  | (k, vs) :: rest, key => if k = key then vs else Header.values rest key

/-- The method `Header.Get`: the first value stored under the canonical form of
`key`, the empty string when there is none. -/
def Header.Get (L : Lib) (h : Header) (key : GoString) : GoString :=
  match Header.values h (L.canonicalMIMEHeaderKey key) with
  | [] => []
  | v :: _ => v

/-- The fields of an `http.Request` the package reads. -/
structure Request where
  Header : Header
  RemoteAddr : GoString
  deriving DecidableEq, Repr

/-- The struct `Config`. -/
structure Config where
  APIKey : GoString
  DBPath : GoString
  Mode : GoString
  Countries : List GoString
  UpdateInterval : GoString
  TrustHeaders : Bool
  deriving DecidableEq, Repr

/-- The function `CreateConfig`: the default configuration. -/
def CreateConfig : Config :=
  { APIKey := [],
    DBPath := str "/etc/geo/geo.mmdb",
    Mode := str "blacklist",
    Countries := [],
    UpdateInterval := str "24h",
    TrustHeaders := false }

/-! ## getClientIP -/

/-- The loop of `getClientIP` over `X-Forwarded-For`: `rest` is
`forwardedFor[i:]`, and every byte before the first comma is appended to `ip`
through the conversion `string(forwardedFor[i])`. -/
def forwardedLoop : GoString → GoString → GoString
  | [], ip => ip
  | b :: rest, ip => if b = 44 then ip else forwardedLoop rest (ip ++ stringOfByte b)

/-- The value of the variable `ip` of `getClientIP` when the block guarded by
`p.config.TrustHeaders` is left. -/
def headerIP (L : Lib) (trustHeaders : Bool) (req : Request) : GoString :=
  if trustHeaders then
    let ip : GoString := []
    let cfIP := Header.Get L req.Header (str "CF-Connecting-IP")
    let ip := if cfIP ≠ [] then cfIP else ip
    let ip :=
      if ip = [] then
        let realIP := Header.Get L req.Header (str "X-Real-IP")
        if realIP ≠ [] then realIP else ip
      else ip
    let ip :=
      if ip = [] then
        let forwardedFor := Header.Get L req.Header (str "X-Forwarded-For")
        if forwardedFor ≠ [] then forwardedLoop forwardedFor ip else ip
      else ip
    ip
  else []

/-- The value of the variable `ip` of `getClientIP` after the fallback to
`req.RemoteAddr`: the string the function tests for emptiness and then hands to
`net.ParseIP`. -/
def clientIPString (L : Lib) (trustHeaders : Bool) (req : Request) : GoString :=
  let ip := headerIP L trustHeaders req
  if ip = [] then
    match L.splitHostPort req.RemoteAddr with
    | .ok (host, _) => host
    | .error _ => ip
  else ip

/-- The method `Plugin.getClientIP`, which reads `p.config.TrustHeaders` only:
`none` is the nil address. -/
def getClientIP (L : Lib) (trustHeaders : Bool) (req : Request) : Option IP :=
  let ip := clientIPString L trustHeaders req
  if ip = [] then none else L.parseIP ip

/-! ## Response writers and the effects of a request -/

/-- What a response writer answers to the assertion `rw.(http.Hijacker)` and to
the call `h.Hijack()` that follows it. -/
inductive Hijack where
  /-- The writer is not an `http.Hijacker`. -/
  | unsupported
  /-- The writer is an `http.Hijacker` and `Hijack` returns an error. -/
  | fails (err : GoError)
  /-- The writer is an `http.Hijacker` and `Hijack` returns the connection
  `conn` and a nil error. -/
  | succeeds (conn : Nat)
  deriving DecidableEq, Repr

/-- An `http.ResponseWriter`: its identity and its hijacking behaviour. -/
structure ResponseWriter where
  id : Nat
  hijack : Hijack
  deriving DecidableEq, Repr

/-- An `http.Handler` the plugin forwards to, known by its identity. -/
structure Handler where
  id : Nat
  deriving DecidableEq, Repr

/-- The calls a request makes on its response writer, on the connection under
it and on the next handler, in the order they are made. -/
inductive Event where
  /-- The call `h.Hijack()` on a writer. -/
  | hijack (rw : ResponseWriter)
  /-- The call `conn.Close()` on a hijacked connection. -/
  | connClose (conn : Nat)
  /-- The call `rw.Header().Set(key, value)`. -/
  | headerSet (rw : ResponseWriter) (key value : GoString)
  /-- The call `rw.WriteHeader(status)`. -/
  | writeHeader (rw : ResponseWriter) (status : Nat)
  /-- The call `rw.Write(body)`. -/
  | write (rw : ResponseWriter) (body : GoString)
  /-- The call `next.ServeHTTP(rw, req)`. -/
  | nextServeHTTP (next : Handler) (rw : ResponseWriter) (req : Request)
  deriving DecidableEq, Repr

/-- The constant `http.StatusForbidden`. -/
def StatusForbidden : Nat := 403

/-- The method `Plugin.terminateConnection`: the calls it makes. -/
def terminateConnection (rw : ResponseWriter) : List Event :=
  match rw.hijack with
  | .succeeds conn => [.hijack rw, .connClose conn]
  | .fails _ =>
    [.hijack rw, .headerSet rw (str "Connection") (str "close"), .writeHeader rw StatusForbidden]
  | .unsupported =>
    [.headerSet rw (str "Connection") (str "close"), .writeHeader rw StatusForbidden]

/-! ## Databases -/

/-- The part of a `geoip2.Country` record the package reads:
`record.Country.IsoCode`. -/
structure Record where
  IsoCode : GoString
  deriving DecidableEq, Repr

/-- What a database file answers for each address: a record, or an error. -/
abbrev DBData := IP → Except GoError Record

/-- A `geoip2.Reader` object: the data it was opened on and whether `Close`
has been called on it. -/
structure ReaderObj where
  data : DBData
  closed : Bool

/-- The reader objects allocated so far; a `*geoip2.Reader` is an index into
this list. -/
abbrev Heap := List ReaderObj

/-- The files of the machine, as `geoip2.Open` sees them: the data of the
database at a path, or the error opening it. -/
abbrev FileSystem := GoString → Except GoError DBData

/-- The function `geoip2.Open`: a new open reader on the data at `path`, or the
error. -/
def geoip2Open (fs : FileSystem) (path : GoString) (h : Heap) : Heap × Except GoError Nat :=
  match fs path with
  | .error err => (h, .error err)
  | .ok data => (h ++ [{ data := data, closed := false }], .ok h.length)

/-- The method `Reader.Close`. -/
def readerClose (h : Heap) (r : Nat) : Heap :=
  h.modify (fun o => { o with closed := true }) r

/-- The method `Reader.Country` on a reader of the heap: a closed reader
answers with an error. -/
def readerCountry (h : Heap) (r : Nat) (ip : IP) : Except GoError Record :=
  match h.get? r with
  | some o =>
    if o.closed then .error ⟨str "cannot call Lookup on a closed database"⟩ else o.data ip
  | none => .error ⟨str "cannot call Lookup on a closed database"⟩

/-! ## The plugin -/

/-- The struct `Plugin`; the lock `dbLock` has no content in a sequential
model.  The map `countries` is the list of its keys. -/
structure Plugin where
  next : Handler
  name : GoString
  config : Config
  /-- The field `db`: `none` is the nil pointer. -/
  db : Option Nat
  /-- The field `updateTicker`: the period of the ticker, `none` for nil. -/
  updateTicker : Option Int
  countries : List GoString
  deriving DecidableEq, Repr

/-- The result of a call that may return a value, return an error, or
panic. -/
inductive Outcome (α : Type) where
  | ok (value : α)
  | error (err : GoError)
  | panicked (msg : GoString)
  deriving DecidableEq, Repr

/-- The method `Plugin.loadDatabase`: the plugin and the heap after the call,
and the error returned (`none` for nil). -/
def loadDatabase (fs : FileSystem) (p : Plugin) (h : Heap) : Plugin × Heap × Option GoError :=
  match geoip2Open fs p.config.DBPath h with
  | (h, .error err) => (p, h, some ⟨str "error opening database: " ++ err.msg⟩)
  | (h, .ok db) =>
    let h := match p.db with
      | some old => readerClose h old
      | none => h
    ({ p with db := some db }, h, none)

/-- The method `Plugin.updateDatabase`, run over the ticks received on the
channel of the ticker: each tick comes with the files as they are when it
fires.  The result is the plugin, the heap and the lines printed; the loop
ranges over the channel of a nil ticker by a nil dereference. -/
def updateDatabase (ticks : List FileSystem) (p : Plugin) (h : Heap) (out : List GoString) :
    Outcome (Plugin × Heap × List GoString) :=
  match p.updateTicker with
  | none => .panicked (str "invalid memory address or nil pointer dereference")
  | some _ =>
    .ok (ticks.foldl (fun (s : Plugin × Heap × List GoString) fs =>
      match loadDatabase fs s.1 s.2.1 with
      | (p, h, some err) =>
        (p, h, s.2.2 ++ [str "Error updating database: " ++ err.msg ++ str "\n"])
      | (p, h, none) => (p, h, s.2.2)) (p, h, out))

/-- The loop `for _, c := range config.Countries { countries[c] = struct{}{} }`
of `New`, on the keys of the map. -/
def countrySet (cs : List GoString) : List GoString :=
  cs.foldl (fun m c => if c ∈ m then m else m ++ [c]) []

/-- The function `time.NewTicker`: it panics on a period that is not
positive. -/
def NewTicker (d : Int) : Outcome Int :=
  if d ≤ 0 then .panicked (str "non-positive interval for NewTicker") else .ok d

/-- The function `New`: the handler, an error or a panic, and the heap after
the call.  The goroutine it starts is `updateDatabase`. -/
def New (L : Lib) (fs : FileSystem) (h : Heap) (next : Handler) (config : Config)
    (name : GoString) : Outcome Plugin × Heap :=
  if config.Countries.length = 0 then
    (.error ⟨str "countries list cannot be empty"⟩, h)
  else if config.Mode ≠ str "blacklist" ∧ config.Mode ≠ str "whitelist" then
    (.error ⟨str "invalid mode: " ++ config.Mode⟩, h)
  else
    let countries := countrySet config.Countries
    let p : Plugin :=
      { next := next, name := name, config := config, db := none, updateTicker := none,
        countries := countries }
    match loadDatabase fs p h with
    | (_, h, some err) => (.error err, h)
    | (p, h, none) =>
      match L.parseDuration config.UpdateInterval with
      | .error err => (.error ⟨str "invalid update interval: " ++ err.msg⟩, h)
      | .ok duration =>
        match NewTicker duration with
        | .ok t => (.ok { p with updateTicker := some t }, h)
        | .error err => (.error err, h)
        | .panicked msg => (.panicked msg, h)

/-- The method `Plugin.ServeHTTP`: the calls it makes, or the panic of a lookup
through a nil `p.db`. -/
def ServeHTTP (L : Lib) (p : Plugin) (h : Heap) (rw : ResponseWriter) (req : Request) :
    Outcome (List Event) :=
  match getClientIP L p.config.TrustHeaders req with
  | none => .ok (terminateConnection rw)
  | some clientIP =>
    match p.db with
    | none => .panicked (str "invalid memory address or nil pointer dereference")
    | some db =>
      match readerCountry h db clientIP with
      | .error _ => .ok (terminateConnection rw)
      | .ok record =>
        let countryCode := record.IsoCode
        let inList := decide (countryCode ∈ p.countries)
        if (p.config.Mode = str "blacklist" ∧ inList) ∨
            (p.config.Mode = str "whitelist" ∧ ¬ inList) then
          .ok (terminateConnection rw)
        else
          .ok [.nextServeHTTP p.next rw req]

/-- A sequence of `loadDatabase` calls, one for each state of the files, the
error of a failing call dropped. -/
def refresh (ticks : List FileSystem) (s : Plugin × Heap) : Plugin × Heap :=
  ticks.foldl (fun s fs => ((loadDatabase fs s.1 s.2).1, (loadDatabase fs s.1 s.2).2.1)) s

/-! ## The vocabulary of the properties -/

/-- The request is forwarded: the next handler is called exactly once, with the
same writer and the same request, and no other call is made. -/
def Forwards (next : Handler) (rw : ResponseWriter) (req : Request)
    (o : Outcome (List Event)) : Prop :=
  o = .ok [.nextServeHTTP next rw req]

/-- The request is terminated: the calls made are those of
`terminateConnection` on the writer, and no other. -/
def Terminates (rw : ResponseWriter) (o : Outcome (List Event)) : Prop :=
  o = .ok (terminateConnection rw)

/-- Whether an event is a call of the next handler. -/
def Event.isNext : Event → Bool
  | .nextServeHTTP _ _ _ => true
  | _ => false

/-- Whether an event writes to the response: a header, a status line or a
body. -/
def Event.writesResponse : Event → Bool
  | .headerSet _ _ _ => true
  | .writeHeader _ _ => true
  | .write _ _ => true
  | _ => false

/-- Whether an event writes a response body. -/
def Event.writesBody : Event → Bool
  | .write _ _ => true
  | _ => false

/-- Whether an event closes a connection. -/
def Event.isClose : Event → Bool
  | .connClose _ => true
  | _ => false

/-- The first comma-separated entry of a header value: the part before its
first comma, the whole value when it has none. -/
def firstCommaEntry (v : GoString) : GoString :=
  v.takeWhile (fun b => b ≠ 44)

/-- Whether the reader at an address of the heap exists and is open. -/
def isOpen (h : Heap) (r : Nat) : Bool :=
  match h.get? r with
  | some o => !o.closed
  | none => false

/-- Whether the reader at an address of the heap exists and is closed. -/
def isClosed (h : Heap) (r : Nat) : Bool :=
  match h.get? r with
  | some o => o.closed
  | none => false

/-! ## A sample environment

The values Go's libraries take at the strings of the examples below; a string
that is not listed is answered with an error. -/

/-- The sample library. -/
def sampleLib : Lib where
  canonicalMIMEHeaderKey k :=
    if k = str "CF-Connecting-IP" then str "Cf-Connecting-Ip"
    else if k = str "X-Real-IP" then str "X-Real-Ip"
    else k
  splitHostPort s :=
    if s = str "10.0.0.1:80" then .ok (str "10.0.0.1", str "80")
    else if s = str "192.0.2.1:4711" then .ok (str "192.0.2.1", str "4711")
    else .error ⟨str "missing port in address"⟩
  parseIP s :=
    if s = str "10.0.0.1" then some [0, 0, 0, 0, 0, 0, 0, 0, 0, 0, 255, 255, 10, 0, 0, 1]
    else if s = str "192.0.2.1" then some [0, 0, 0, 0, 0, 0, 0, 0, 0, 0, 255, 255, 192, 0, 2, 1]
    else if s = str "203.0.113.7" then
      some [0, 0, 0, 0, 0, 0, 0, 0, 0, 0, 255, 255, 203, 0, 113, 7]
    else if s = str "198.51.100.9" then
      some [0, 0, 0, 0, 0, 0, 0, 0, 0, 0, 255, 255, 198, 51, 100, 9]
    else none
  parseDuration s :=
    if s = str "24h" then .ok 86400000000000
    else if s = str "0s" then .ok 0
    else if s = str "-1h" then .ok (-3600000000000)
    else .error ⟨str "time: invalid duration"⟩

/-- A sample database: 10.0.0.1 is in CN, 203.0.113.7 in US, 192.0.2.1 is
answered by a record without a country, every other address by an error. -/
def sampleData : DBData := fun ip =>
  if ip = [0, 0, 0, 0, 0, 0, 0, 0, 0, 0, 255, 255, 10, 0, 0, 1] then .ok ⟨str "CN"⟩
  else if ip = [0, 0, 0, 0, 0, 0, 0, 0, 0, 0, 255, 255, 203, 0, 113, 7] then .ok ⟨str "US"⟩
  else if ip = [0, 0, 0, 0, 0, 0, 0, 0, 0, 0, 255, 255, 192, 0, 2, 1] then .ok ⟨[]⟩
  else .error ⟨str "unknown address"⟩

/-- Sample files: a database at the default path and nowhere else. -/
def sampleFiles : FileSystem := fun path =>
  if path = str "/etc/geo/geo.mmdb" then .ok sampleData
  else .error ⟨str "open: no such file or directory"⟩

/-- Sample files without any database. -/
def noFiles : FileSystem := fun _ => .error ⟨str "open: no such file or directory"⟩

/-- A sample configuration: the default one with the countries CN and RU. -/
def sampleConfig : Config :=
  { CreateConfig with Countries := [str "CN", str "RU"] }

/-- A sample writer that cannot be hijacked. -/
def sampleWriter : ResponseWriter := { id := 0, hijack := .unsupported }

/-- The plugin `New` returns on the sample configuration. -/
def samplePlugin : Plugin :=
  { next := ⟨1⟩, name := str "geoip", config := sampleConfig, db := some 0,
    updateTicker := some 86400000000000, countries := [str "CN", str "RU"] }

/-- The sample plugin with `TrustHeaders` set. -/
def trustingPlugin : Plugin :=
  { samplePlugin with config := { sampleConfig with TrustHeaders := true } }

/-- The heap after `New` on the sample files. -/
def sampleHeap : Heap := [{ data := sampleData, closed := false }]

/-! ## Auxiliary facts -/

theorem blacklist_ne_whitelist : str "blacklist" ≠ str "whitelist" := by decide

theorem mem_foldl_insert (c : GoString) (cs acc : List GoString) :
    c ∈ cs.foldl (fun m c => if c ∈ m then m else m ++ [c]) acc ↔ c ∈ acc ∨ c ∈ cs := by
  induction cs generalizing acc with
  | nil => simp
  | cons d ds ih =>
    rw [List.foldl_cons, ih]
    by_cases hd : d ∈ acc
    · simp only [hd, if_true, List.mem_cons]
      constructor
      · rintro (h | h)
        · exact Or.inl h
        · exact Or.inr (Or.inr h)
      · rintro (h | h | h)
        · exact Or.inl h
        · exact Or.inl (h ▸ hd)
        · exact Or.inr h
    · simp only [hd, if_false, List.mem_append, List.mem_singleton, List.mem_cons]
      tauto

theorem mem_countrySet (c : GoString) (cs : List GoString) : c ∈ countrySet cs ↔ c ∈ cs := by
  unfold countrySet
  rw [mem_foldl_insert]
  simp

theorem terminate_no_next (rw : ResponseWriter) :
    ∀ e ∈ terminateConnection rw, e.isNext = false := by
  intro e he
  unfold terminateConnection at he
  cases hh : rw.hijack <;> rw [hh] at he <;>
    simp only [List.mem_cons, List.mem_singleton, List.not_mem_nil, or_false] at he
  · rcases he with he | he <;> subst he <;> rfl
  · rcases he with he | he | he <;> subst he <;> rfl
  · rcases he with he | he <;> subst he <;> rfl

theorem forward_ne_terminate (next : Handler) (rw rw2 : ResponseWriter) (req : Request) :
    [Event.nextServeHTTP next rw req] ≠ terminateConnection rw2 := by
  intro h
  have := terminate_no_next rw2 (Event.nextServeHTTP next rw req) (h ▸ List.mem_singleton_self _)
  simp [Event.isNext] at this

theorem loadDatabase_fields (fs : FileSystem) (p : Plugin) (h : Heap) :
    (loadDatabase fs p h).1.config = p.config ∧ (loadDatabase fs p h).1.countries = p.countries ∧
    (loadDatabase fs p h).1.next = p.next ∧
    (loadDatabase fs p h).1.updateTicker = p.updateTicker := by
  unfold loadDatabase geoip2Open
  cases fs p.config.DBPath <;> simp

theorem refresh_fields (ticks : List FileSystem) (s : Plugin × Heap) :
    (refresh ticks s).1.config = s.1.config ∧ (refresh ticks s).1.countries = s.1.countries ∧
    (refresh ticks s).1.next = s.1.next ∧ (refresh ticks s).1.updateTicker = s.1.updateTicker := by
  induction ticks generalizing s with
  | nil => simp [refresh]
  | cons fs rest ih =>
    have h1 := ih ((loadDatabase fs s.1 s.2).1, (loadDatabase fs s.1 s.2).2.1)
    have h2 := loadDatabase_fields fs s.1 s.2
    simp only [refresh, List.foldl_cons] at h1 ⊢
    simp only [h2] at h1
    exact h1

/-- What a successful `New` has checked and built. -/
theorem New_ok (L : Lib) (fs : FileSystem) (h h1 : Heap) (next : Handler) (cfg : Config)
    (name : GoString) (p : Plugin) (hNew : New L fs h next cfg name = (.ok p, h1)) :
    cfg.Countries ≠ [] ∧ (cfg.Mode = str "blacklist" ∨ cfg.Mode = str "whitelist") ∧
    (∃ data, fs cfg.DBPath = .ok data ∧ h1 = h ++ [{ data := data, closed := false }]) ∧
    (∃ d, L.parseDuration cfg.UpdateInterval = .ok d ∧ 0 < d ∧ p.updateTicker = some d) ∧
    p.config = cfg ∧ p.countries = countrySet cfg.Countries ∧ p.next = next ∧
    p.name = name ∧ p.db = some h.length := by
  unfold New at hNew
  split at hNew
  · simp at hNew
  split at hNew
  · simp at hNew
  rename_i hc hm
  have hc2 : cfg.Countries ≠ [] := by
    intro h0
    exact hc (by simp [h0])
  have hm2 : cfg.Mode = str "blacklist" ∨ cfg.Mode = str "whitelist" := by
    by_contra hcon
    push_neg at hcon
    exact hm hcon
  simp only [loadDatabase, geoip2Open] at hNew
  cases hfs : fs cfg.DBPath with
  | error e => simp [hfs] at hNew
  | ok data =>
    simp only [hfs] at hNew
    cases hd : L.parseDuration cfg.UpdateInterval with
    | error e => simp [hd] at hNew
    | ok d =>
      simp only [hd, NewTicker] at hNew
      by_cases hpos : d ≤ 0
      · simp [hpos] at hNew
      · simp only [hpos, if_false, Prod.mk.injEq, Outcome.ok.injEq] at hNew
        obtain ⟨hp, hh⟩ := hNew
        subst hp
        refine ⟨hc2, hm2, ⟨data, rfl, hh.symm⟩, ⟨d, rfl, by omega, rfl⟩, rfl, rfl, rfl, rfl, rfl⟩

/-- The decision of `ServeHTTP` on a request whose address resolves and whose
lookup succeeds. -/
theorem ServeHTTP_of_record (L : Lib) (p : Plugin) (h : Heap) (rw : ResponseWriter)
    (req : Request) (ip : IP) (db : Nat) (record : Record)
    (hip : getClientIP L p.config.TrustHeaders req = some ip) (hdb : p.db = some db)
    (hrec : readerCountry h db ip = .ok record) :
    ServeHTTP L p h rw req =
      if (p.config.Mode = str "blacklist" ∧ record.IsoCode ∈ p.countries) ∨
          (p.config.Mode = str "whitelist" ∧ record.IsoCode ∉ p.countries) then
        .ok (terminateConnection rw)
      else .ok [.nextServeHTTP p.next rw req] := by
  unfold ServeHTTP
  simp only [hip, hdb, hrec, decide_eq_true_eq]

/-- The decision of `ServeHTTP`, for a plugin built by `New` and refreshed any
number of times, in terms of the configuration given to `New`. -/
theorem ServeHTTP_after_New (L : Lib) (fs : FileSystem) (h0 h1 : Heap) (next : Handler)
    (cfg : Config) (name : GoString) (p0 : Plugin) (ticks : List FileSystem)
    (rw : ResponseWriter) (req : Request) (ip : IP) (db : Nat) (record : Record)
    (hNew : New L fs h0 next cfg name = (.ok p0, h1))
    (hip : getClientIP L cfg.TrustHeaders req = some ip)
    (hdb : (refresh ticks (p0, h1)).1.db = some db)
    (hrec : readerCountry (refresh ticks (p0, h1)).2 db ip = .ok record) :
    ServeHTTP L (refresh ticks (p0, h1)).1 (refresh ticks (p0, h1)).2 rw req =
      if (cfg.Mode = str "blacklist" ∧ record.IsoCode ∈ cfg.Countries) ∨
          (cfg.Mode = str "whitelist" ∧ record.IsoCode ∉ cfg.Countries) then
        .ok (terminateConnection rw)
      else .ok [.nextServeHTTP next rw req] := by
  obtain ⟨_, _, _, _, hcfg, hcs, hnext, _, _⟩ := New_ok L fs h0 h1 next cfg name p0 hNew
  obtain ⟨rcfg, rcs, rnext, _⟩ := refresh_fields ticks (p0, h1)
  simp only [hcfg, hcs, hnext] at rcfg rcs rnext
  have hip2 : getClientIP L (refresh ticks (p0, h1)).1.config.TrustHeaders req = some ip := by
    rw [rcfg]; exact hip
  rw [ServeHTTP_of_record L _ _ rw req ip db record hip2 hdb hrec, rcfg, rcs, rnext]
  simp only [mem_countrySet]

/-! ## The decision of a request -/

/-- C1: for a configuration accepted by `New` (the plugin possibly refreshed
since) and a request whose client address resolves and whose lookup succeeds
with country code `c`: in blacklist mode `ServeHTTP` terminates the connection
if and only if `c` is among the configured countries and forwards otherwise; in
whitelist mode it forwards if and only if `c` is among the configured countries
and terminates otherwise.  Forwarding is exactly one call of the next handler
with the same writer and request, and is never a termination; a termination
makes no call of the next handler. -/
theorem serveHTTP_decides_by_country (L : Lib) (fs : FileSystem) (h0 h1 : Heap)
    (next : Handler) (cfg : Config) (name : GoString) (p0 : Plugin) (ticks : List FileSystem)
    (rw : ResponseWriter) (req : Request) (ip : IP) (db : Nat) (record : Record)
    (hNew : New L fs h0 next cfg name = (.ok p0, h1))
    (hip : getClientIP L cfg.TrustHeaders req = some ip)
    (hdb : (refresh ticks (p0, h1)).1.db = some db)
    (hrec : readerCountry (refresh ticks (p0, h1)).2 db ip = .ok record) :
    (cfg.Mode = str "blacklist" →
      (Terminates rw (ServeHTTP L (refresh ticks (p0, h1)).1 (refresh ticks (p0, h1)).2 rw req)
          ↔ record.IsoCode ∈ cfg.Countries) ∧
      (record.IsoCode ∉ cfg.Countries →
        Forwards next rw req
          (ServeHTTP L (refresh ticks (p0, h1)).1 (refresh ticks (p0, h1)).2 rw req))) ∧
    (cfg.Mode = str "whitelist" →
      (Forwards next rw req
          (ServeHTTP L (refresh ticks (p0, h1)).1 (refresh ticks (p0, h1)).2 rw req)
          ↔ record.IsoCode ∈ cfg.Countries) ∧
      (record.IsoCode ∉ cfg.Countries →
        Terminates rw
          (ServeHTTP L (refresh ticks (p0, h1)).1 (refresh ticks (p0, h1)).2 rw req))) ∧
    (Forwards next rw req
        (ServeHTTP L (refresh ticks (p0, h1)).1 (refresh ticks (p0, h1)).2 rw req) →
      ¬ Terminates rw
        (ServeHTTP L (refresh ticks (p0, h1)).1 (refresh ticks (p0, h1)).2 rw req)) ∧
    (∀ e ∈ terminateConnection rw, e.isNext = false) := by
  have key := ServeHTTP_after_New L fs h0 h1 next cfg name p0 ticks rw req ip db record
    hNew hip hdb hrec
  have hne := forward_ne_terminate next rw rw req
  have hne2 : terminateConnection rw ≠ [Event.nextServeHTTP next rw req] := fun h => hne h.symm
  have hbw := blacklist_ne_whitelist
  refine ⟨?_, ?_, ?_, terminate_no_next rw⟩
  · intro hm
    rw [key]
    simp only [Terminates, Forwards, hm, true_and, hbw, false_and, or_false]
    by_cases hc : record.IsoCode ∈ cfg.Countries <;> simp [hc, hne]
  · intro hm
    rw [key]
    simp only [Terminates, Forwards, hm, true_and, hbw.symm, false_and, false_or]
    by_cases hc : record.IsoCode ∈ cfg.Countries <;> simp [hc, hne2]
  · intro hf ht
    simp only [Terminates, Forwards] at hf ht
    rw [hf] at ht
    simp only [Outcome.ok.injEq] at ht
    exact hne ht

/-- Witness of C1 on the sample plugin after one refresh: a request from
10.0.0.1, which the database places in CN, is terminated under the blacklist
of CN and RU. -/
theorem serveHTTP_decides_by_country_witness :
    Terminates sampleWriter
      (ServeHTTP sampleLib (refresh [sampleFiles] (samplePlugin, sampleHeap)).1
        (refresh [sampleFiles] (samplePlugin, sampleHeap)).2 sampleWriter
        ⟨[], str "10.0.0.1:80"⟩) :=
  ((serveHTTP_decides_by_country sampleLib sampleFiles [] sampleHeap ⟨1⟩ sampleConfig
    (str "geoip") samplePlugin [sampleFiles] sampleWriter ⟨[], str "10.0.0.1:80"⟩
    [0, 0, 0, 0, 0, 0, 0, 0, 0, 0, 255, 255, 10, 0, 0, 1] 1 ⟨str "CN"⟩
    rfl (by decide) rfl rfl).1 (by decide)).1.2 (by decide)

/-- C2, as stated, fails: under the blacklist of CN and RU accepted by `New`, a
request from 192.0.2.1, for which the lookup succeeds with an empty country
code, is forwarded to the next handler and not terminated. -/
theorem empty_country_forwarded_under_blacklist :
    New sampleLib sampleFiles [] ⟨1⟩ sampleConfig (str "geoip") = (.ok samplePlugin, sampleHeap) ∧
    sampleConfig.Mode = str "blacklist" ∧
    getClientIP sampleLib sampleConfig.TrustHeaders ⟨[], str "192.0.2.1:4711"⟩ =
      some [0, 0, 0, 0, 0, 0, 0, 0, 0, 0, 255, 255, 192, 0, 2, 1] ∧
    samplePlugin.db = some 0 ∧
    readerCountry sampleHeap 0 [0, 0, 0, 0, 0, 0, 0, 0, 0, 0, 255, 255, 192, 0, 2, 1] = .ok ⟨[]⟩ ∧
    ServeHTTP sampleLib samplePlugin sampleHeap sampleWriter ⟨[], str "192.0.2.1:4711"⟩ =
      .ok [.nextServeHTTP ⟨1⟩ sampleWriter ⟨[], str "192.0.2.1:4711"⟩] ∧
    ¬ Terminates sampleWriter
      (ServeHTTP sampleLib samplePlugin sampleHeap sampleWriter ⟨[], str "192.0.2.1:4711"⟩) := by
  refine ⟨rfl, by decide, by decide, rfl, rfl, by decide, by unfold Terminates; decide⟩

/-- C2, amended: for a configuration accepted by `New` (the plugin possibly
refreshed since), a request whose lookup succeeds with an empty country code is
decided like any other code.  It is terminated, the next handler never called,
exactly when the mode is whitelist and the empty string is not among the
configured countries, or the mode is blacklist and the empty string is among
them; in every other case it is forwarded. -/
theorem empty_country_decided_by_membership (L : Lib) (fs : FileSystem) (h0 h1 : Heap)
    (next : Handler) (cfg : Config) (name : GoString) (p0 : Plugin) (ticks : List FileSystem)
    (rw : ResponseWriter) (req : Request) (ip : IP) (db : Nat) (record : Record)
    (hNew : New L fs h0 next cfg name = (.ok p0, h1))
    (hip : getClientIP L cfg.TrustHeaders req = some ip)
    (hdb : (refresh ticks (p0, h1)).1.db = some db)
    (hrec : readerCountry (refresh ticks (p0, h1)).2 db ip = .ok record)
    (hempty : record.IsoCode = []) :
    (Terminates rw (ServeHTTP L (refresh ticks (p0, h1)).1 (refresh ticks (p0, h1)).2 rw req)
      ↔ (cfg.Mode = str "whitelist" ∧ ([] : GoString) ∉ cfg.Countries) ∨
        (cfg.Mode = str "blacklist" ∧ ([] : GoString) ∈ cfg.Countries)) ∧
    (Forwards next rw req
        (ServeHTTP L (refresh ticks (p0, h1)).1 (refresh ticks (p0, h1)).2 rw req)
      ↔ ¬ ((cfg.Mode = str "whitelist" ∧ ([] : GoString) ∉ cfg.Countries) ∨
        (cfg.Mode = str "blacklist" ∧ ([] : GoString) ∈ cfg.Countries))) ∧
    (∀ e ∈ terminateConnection rw, e.isNext = false) := by
  have key := ServeHTTP_after_New L fs h0 h1 next cfg name p0 ticks rw req ip db record
    hNew hip hdb hrec
  have hne := forward_ne_terminate next rw rw req
  have hne2 : terminateConnection rw ≠ [Event.nextServeHTTP next rw req] := fun h => hne h.symm
  rw [hempty] at key
  have hcomm : ((cfg.Mode = str "whitelist" ∧ ([] : GoString) ∉ cfg.Countries) ∨
        (cfg.Mode = str "blacklist" ∧ ([] : GoString) ∈ cfg.Countries)) ↔
      ((cfg.Mode = str "blacklist" ∧ ([] : GoString) ∈ cfg.Countries) ∨
        (cfg.Mode = str "whitelist" ∧ ([] : GoString) ∉ cfg.Countries)) := Or.comm
  refine ⟨?_, ?_, terminate_no_next rw⟩
  · rw [key, hcomm]
    simp only [Terminates]
    split_ifs with hc
    · simp [hc]
    · simp [hc, hne]
  · rw [key, hcomm]
    simp only [Forwards]
    split_ifs with hc
    · simp [hc, hne2]
    · simp [hc]

/-- Witness of the amended C2 on the sample plugin: under the blacklist of CN
and RU, the request from 192.0.2.1, whose country code is empty, is
forwarded. -/
theorem empty_country_decided_by_membership_witness :
    Forwards ⟨1⟩ sampleWriter ⟨[], str "192.0.2.1:4711"⟩
      (ServeHTTP sampleLib (refresh [] (samplePlugin, sampleHeap)).1
        (refresh [] (samplePlugin, sampleHeap)).2 sampleWriter ⟨[], str "192.0.2.1:4711"⟩) :=
  (empty_country_decided_by_membership sampleLib sampleFiles [] sampleHeap ⟨1⟩ sampleConfig
    (str "geoip") samplePlugin [] sampleWriter ⟨[], str "192.0.2.1:4711"⟩
    [0, 0, 0, 0, 0, 0, 0, 0, 0, 0, 255, 255, 192, 0, 2, 1] 0 ⟨[]⟩
    rfl (by decide) rfl rfl rfl).2.1.mpr (by decide)

/-- C3: whatever the plugin (its mode, its countries, its database), a request
for which `getClientIP` yields no address, or for which the lookup in the
active database returns an error, is terminated: the calls `ServeHTTP` makes
are those of `terminateConnection`, none of them a call of the next
handler. -/
theorem serveHTTP_fails_closed (L : Lib) (p : Plugin) (h : Heap) (rw : ResponseWriter)
    (req : Request)
    (hfail : getClientIP L p.config.TrustHeaders req = none ∨
      ∃ ip db err, getClientIP L p.config.TrustHeaders req = some ip ∧ p.db = some db ∧
        readerCountry h db ip = .error err) :
    Terminates rw (ServeHTTP L p h rw req) ∧
    (∀ tr, ServeHTTP L p h rw req = .ok tr → ∀ e ∈ tr, e.isNext = false) ∧
    ∀ next, ¬ Forwards next rw req (ServeHTTP L p h rw req) := by
  have ht : ServeHTTP L p h rw req = .ok (terminateConnection rw) := by
    unfold ServeHTTP
    rcases hfail with hnone | ⟨ip, db, err, hip, hdb, herr⟩
    · simp only [hnone]
    · simp only [hip, hdb, herr]
  refine ⟨ht, ?_, ?_⟩
  · intro tr htr e he
    rw [ht] at htr
    simp only [Outcome.ok.injEq] at htr
    subst htr
    exact terminate_no_next rw e he
  · intro next hf
    simp only [Forwards, ht, Outcome.ok.injEq] at hf
    exact forward_ne_terminate next rw rw req hf.symm

/-- Witness of C3 on the sample plugin: the lookup of 198.51.100.9, an address
the sample database does not know, returns an error, and the request is
terminated. -/
theorem serveHTTP_fails_closed_witness :
    Terminates sampleWriter
      (ServeHTTP sampleLib trustingPlugin sampleHeap sampleWriter
        ⟨[(str "Cf-Connecting-Ip", [str "198.51.100.9"])], str "10.0.0.1:80"⟩) :=
  (serveHTTP_fails_closed sampleLib trustingPlugin sampleHeap sampleWriter
    ⟨[(str "Cf-Connecting-Ip", [str "198.51.100.9"])], str "10.0.0.1:80"⟩
    (Or.inr ⟨[0, 0, 0, 0, 0, 0, 0, 0, 0, 0, 255, 255, 198, 51, 100, 9], 0,
      ⟨str "unknown address"⟩, by decide, rfl, rfl⟩)).1

/-! ## Terminating a connection -/

/-- C10: `terminateConnection` does exactly one of two things.  On a writer
that can be hijacked and whose hijack succeeds it hijacks, closes the
connection, and writes nothing to the response (no header, no status line, no
body).  On every other writer (not a hijacker, or the hijack returns an error)
it closes no connection, and what it writes to the response is the header
`Connection: close` followed by the status 403, without a body. -/
theorem terminateConnection_closes_or_403 (rw : ResponseWriter) :
    (∃ conn, rw.hijack = .succeeds conn ∧
      terminateConnection rw = [.hijack rw, .connClose conn] ∧
      (terminateConnection rw).filter Event.writesResponse = []) ∨
    ((∀ conn, rw.hijack ≠ .succeeds conn) ∧
      (terminateConnection rw).filter Event.writesResponse =
        [.headerSet rw (str "Connection") (str "close"), .writeHeader rw 403] ∧
      (terminateConnection rw).filter Event.writesBody = [] ∧
      (terminateConnection rw).filter Event.isClose = []) := by
  unfold terminateConnection
  cases hh : rw.hijack with
  | unsupported => right; simp [Event.writesResponse, Event.writesBody, Event.isClose, StatusForbidden]
  | fails err => right; simp [Event.writesResponse, Event.writesBody, Event.isClose, StatusForbidden]
  | succeeds conn => left; exact ⟨conn, rfl, rfl, rfl⟩

/-! ## The client address -/

theorem stringOfByte_ascii (b : Byte) (hb : b.val < 128) : stringOfByte b = [b] := by
  unfold stringOfByte encodeRune
  rw [if_pos hb]
  congr 1
  apply Fin.ext
  simp [Fin.ofNat]

theorem forwardedLoop_eq (v ip : GoString) :
    forwardedLoop v ip = ip ++ (firstCommaEntry v).flatMap stringOfByte := by
  induction v generalizing ip with
  | nil => simp [forwardedLoop, firstCommaEntry]
  | cons b rest ih =>
    unfold forwardedLoop firstCommaEntry
    by_cases hb : b = 44
    · simp [hb]
    · simp only [hb, if_false, ne_eq, not_false_eq_true, decide_True, List.takeWhile_cons_of_pos,
        List.flatMap_cons]
      rw [ih]
      simp [firstCommaEntry]

theorem forwardedLoop_ascii (v : GoString) (hascii : ∀ b ∈ firstCommaEntry v, b.val < 128) :
    forwardedLoop v [] = firstCommaEntry v := by
  rw [forwardedLoop_eq, List.nil_append]
  generalize firstCommaEntry v = w at hascii
  induction w with
  | nil => rfl
  | cons b rest ih =>
    rw [List.flatMap_cons, stringOfByte_ascii b (hascii b (List.mem_cons_self _ _)),
      ih (fun c hc => hascii c (List.mem_cons_of_mem _ hc))]
    rfl

/-- C4: with `trustHeaders` set, whatever the rest of the request holds: when
`CF-Connecting-IP` has a non-empty value, the string `getClientIP` parses is
exactly that value; when `CF-Connecting-IP` is absent or empty and `X-Real-IP`
has a non-empty value, the string parsed is exactly the value of
`X-Real-IP`. -/
theorem getClientIP_header_priority (L : Lib) (req : Request) :
    (Header.Get L req.Header (str "CF-Connecting-IP") ≠ [] →
      clientIPString L true req = Header.Get L req.Header (str "CF-Connecting-IP") ∧
      getClientIP L true req = L.parseIP (Header.Get L req.Header (str "CF-Connecting-IP"))) ∧
    (Header.Get L req.Header (str "CF-Connecting-IP") = [] →
      Header.Get L req.Header (str "X-Real-IP") ≠ [] →
      clientIPString L true req = Header.Get L req.Header (str "X-Real-IP") ∧
      getClientIP L true req = L.parseIP (Header.Get L req.Header (str "X-Real-IP"))) := by
  constructor
  · intro hcf
    have hs : clientIPString L true req = Header.Get L req.Header (str "CF-Connecting-IP") := by
      simp [clientIPString, headerIP, hcf]
    refine ⟨hs, ?_⟩
    unfold getClientIP
    simp only [hs, hcf, if_false]
  · intro hcf hreal
    have hs : clientIPString L true req = Header.Get L req.Header (str "X-Real-IP") := by
      simp [clientIPString, headerIP, hcf, hreal]
    refine ⟨hs, ?_⟩
    unfold getClientIP
    simp only [hs, hreal, if_false]

/-- Witness of C4: with the three headers present, the address parsed is the
value of `CF-Connecting-IP`. -/
theorem getClientIP_header_priority_witness :
    clientIPString sampleLib true
      ⟨[(str "X-Forwarded-For", [str "10.0.0.1"]), (str "X-Real-Ip", [str "192.0.2.1"]),
        (str "Cf-Connecting-Ip", [str "203.0.113.7"])], str "10.0.0.1:80"⟩ =
      str "203.0.113.7" :=
  ((getClientIP_header_priority sampleLib
    ⟨[(str "X-Forwarded-For", [str "10.0.0.1"]), (str "X-Real-Ip", [str "192.0.2.1"]),
      (str "Cf-Connecting-Ip", [str "203.0.113.7"])], str "10.0.0.1:80"⟩).1 (by decide)).1

/-- C5: with `trustHeaders` unset the result of `getClientIP` depends on
`RemoteAddr` only: two requests with the same `RemoteAddr` resolve to the same
result, whatever their headers; and when `RemoteAddr` splits into a host and a
port, the result is the parse of the host, an empty host giving no address
(which is the parse of the host as well, as soon as the empty string parses to
no address). -/
theorem getClientIP_untrusted_remoteAddr (L : Lib) :
    (∀ req1 req2 : Request, req1.RemoteAddr = req2.RemoteAddr →
      getClientIP L false req1 = getClientIP L false req2) ∧
    (∀ (req : Request) (host port : GoString),
      L.splitHostPort req.RemoteAddr = .ok (host, port) →
      clientIPString L false req = host ∧
      getClientIP L false req = (if host = [] then none else L.parseIP host) ∧
      (L.parseIP [] = none → getClientIP L false req = L.parseIP host)) := by
  constructor
  · intro req1 req2 heq
    simp [getClientIP, clientIPString, headerIP, heq]
  · intro req host port hsplit
    have hs : clientIPString L false req = host := by
      simp [clientIPString, headerIP, hsplit]
    refine ⟨hs, ?_, ?_⟩
    · simp only [getClientIP, hs]
    · intro hnil
      simp only [getClientIP, hs]
      split_ifs with hh
      · rw [hh, hnil]
      · rfl

/-- Witness of C5: the request from 10.0.0.1:80 resolves to 10.0.0.1 in spite
of its `CF-Connecting-IP` header. -/
theorem getClientIP_untrusted_remoteAddr_witness :
    getClientIP sampleLib false
      ⟨[(str "Cf-Connecting-Ip", [str "203.0.113.7"])], str "10.0.0.1:80"⟩ =
      sampleLib.parseIP (str "10.0.0.1") :=
  ((getClientIP_untrusted_remoteAddr sampleLib).2
    ⟨[(str "Cf-Connecting-Ip", [str "203.0.113.7"])], str "10.0.0.1:80"⟩
    (str "10.0.0.1") (str "80") rfl).2.2 rfl

/-- C6, as stated, fails: with `trustHeaders` set, no `CF-Connecting-IP`, no
`X-Real-IP` and the non-empty `X-Forwarded-For` value `,203.0.113.7`, whose
first comma-separated entry is empty, the string `getClientIP` parses is the
host 10.0.0.1 of `RemoteAddr`, not that entry, and the result is the address
10.0.0.1, not the parse of that entry. -/
theorem forwardedFor_leading_comma_uses_remoteAddr :
    Header.Get sampleLib [(str "X-Forwarded-For", [str ",203.0.113.7"])]
      (str "CF-Connecting-IP") = [] ∧
    Header.Get sampleLib [(str "X-Forwarded-For", [str ",203.0.113.7"])] (str "X-Real-IP") = [] ∧
    Header.Get sampleLib [(str "X-Forwarded-For", [str ",203.0.113.7"])]
      (str "X-Forwarded-For") = str ",203.0.113.7" ∧
    str ",203.0.113.7" ≠ [] ∧
    firstCommaEntry (str ",203.0.113.7") = [] ∧
    clientIPString sampleLib true
      ⟨[(str "X-Forwarded-For", [str ",203.0.113.7"])], str "10.0.0.1:80"⟩ = str "10.0.0.1" ∧
    clientIPString sampleLib true
      ⟨[(str "X-Forwarded-For", [str ",203.0.113.7"])], str "10.0.0.1:80"⟩ ≠
      firstCommaEntry (str ",203.0.113.7") ∧
    getClientIP sampleLib true
      ⟨[(str "X-Forwarded-For", [str ",203.0.113.7"])], str "10.0.0.1:80"⟩ ≠
      sampleLib.parseIP (firstCommaEntry (str ",203.0.113.7")) := by
  decide

/-- C6, amended: with `trustHeaders` set, `CF-Connecting-IP` and `X-Real-IP`
absent or empty and `X-Forwarded-For` holding a non-empty value `v`: when the
first comma-separated entry of `v` (the part before its first comma, all of `v`
when it has none) is not empty and is made of ASCII bytes, the string
`getClientIP` parses is exactly that entry, untrimmed, and the result is the
parse of that entry; when that entry is empty (`v` begins with a comma),
`getClientIP` goes on to `RemoteAddr`, as it does with `trustHeaders` unset. -/
theorem getClientIP_forwardedFor_first_entry (L : Lib) (req : Request) (v : GoString)
    (hcf : Header.Get L req.Header (str "CF-Connecting-IP") = [])
    (hreal : Header.Get L req.Header (str "X-Real-IP") = [])
    (hfwd : Header.Get L req.Header (str "X-Forwarded-For") = v) (hv : v ≠ []) :
    (firstCommaEntry v ≠ [] → (∀ b ∈ firstCommaEntry v, b.val < 128) →
      clientIPString L true req = firstCommaEntry v ∧
      getClientIP L true req = L.parseIP (firstCommaEntry v)) ∧
    (firstCommaEntry v = [] →
      clientIPString L true req = clientIPString L false req ∧
      getClientIP L true req = getClientIP L false req) := by
  have hh : headerIP L true req = forwardedLoop v [] := by
    simp [headerIP, hcf, hreal, hfwd, hv]
  constructor
  · intro hne hascii
    have hs : clientIPString L true req = firstCommaEntry v := by
      simp only [clientIPString, hh, forwardedLoop_ascii v hascii, hne, if_false]
    refine ⟨hs, ?_⟩
    simp only [getClientIP, hs, hne, if_false]
  · intro hnil
    have hl : forwardedLoop v [] = [] := by
      rw [forwardedLoop_eq, hnil]
      rfl
    have hf : headerIP L false req = [] := by simp [headerIP]
    have hs : clientIPString L true req = clientIPString L false req := by
      simp only [clientIPString, hh, hl, hf]
    refine ⟨hs, ?_⟩
    simp only [getClientIP, hs]

/-- Witness of the amended C6: of the value `203.0.113.7, 10.0.0.1` the entry
`203.0.113.7` is parsed. -/
theorem getClientIP_forwardedFor_first_entry_witness :
    clientIPString sampleLib true
      ⟨[(str "X-Forwarded-For", [str "203.0.113.7, 10.0.0.1"])], str "10.0.0.1:80"⟩ =
      str "203.0.113.7" :=
  ((getClientIP_forwardedFor_first_entry sampleLib
    ⟨[(str "X-Forwarded-For", [str "203.0.113.7, 10.0.0.1"])], str "10.0.0.1:80"⟩
    (str "203.0.113.7, 10.0.0.1") (by decide) (by decide) (by decide) (by decide)).1
    (by decide) (by decide)).1

/-! ## Loading the database -/

theorem loadDatabase_error (fs : FileSystem) (p : Plugin) (h : Heap) (err : GoError)
    (hfail : fs p.config.DBPath = .error err) :
    loadDatabase fs p h = (p, h, some ⟨str "error opening database: " ++ err.msg⟩) := by
  simp [loadDatabase, geoip2Open, hfail]

theorem loadDatabase_ok (fs : FileSystem) (p : Plugin) (h : Heap) (data : DBData)
    (hok : fs p.config.DBPath = .ok data) :
    loadDatabase fs p h =
      ({ p with db := some h.length },
        (match p.db with
          | some old => readerClose (h ++ [{ data := data, closed := false }]) old
          | none => h ++ [{ data := data, closed := false }]),
        none) := by
  simp [loadDatabase, geoip2Open, hok]

theorem isOpen_lt (h : Heap) (r : Nat) (hopen : isOpen h r = true) : r < h.length := by
  unfold isOpen at hopen
  by_contra hge
  rw [List.get?_eq_getElem?, List.getElem?_eq_none (by omega)] at hopen
  simp at hopen

theorem isOpen_new (h : Heap) (data : DBData) (r : Nat) (hr : r < h.length) :
    isOpen (readerClose (h ++ [{ data := data, closed := false }]) r) h.length = true := by
  have hne : r ≠ h.length := by omega
  simp [isOpen, readerClose, List.getElem?_modify_ne _ _ hne]

theorem isClosed_append (h : Heap) (o : ReaderObj) (b : Nat) (hb : isClosed h b = true) :
    isClosed (h ++ [o]) b = true := by
  unfold isClosed at hb ⊢
  rw [List.get?_eq_getElem?] at hb ⊢
  cases hget : h[b]? with
  | none => simp [hget] at hb
  | some x =>
    have hlt : b < h.length := by
      by_contra hge
      rw [List.getElem?_eq_none (by omega)] at hget
      exact Option.noConfusion hget
    rw [List.getElem?_append_left hlt, hget]
    simpa [hget] using hb

theorem isClosed_readerClose (h : Heap) (r b : Nat) (hb : isClosed h b = true) :
    isClosed (readerClose h r) b = true := by
  unfold isClosed readerClose at *
  rw [List.get?_eq_getElem?] at hb ⊢
  rw [List.getElem?_modify]
  cases hget : h[b]? with
  | none => simp [hget] at hb
  | some x =>
    simp only [hget] at hb
    by_cases hrb : r = b <;> simp [hrb, hb]

theorem isClosed_readerClose_self (h : Heap) (r : Nat) (hr : r < h.length) :
    isClosed (readerClose h r) r = true := by
  unfold isClosed readerClose
  rw [List.get?_eq_getElem?, List.getElem?_modify_eq, List.getElem?_eq_getElem hr]
  rfl

/-- A load keeps a database active and open. -/
theorem loadDatabase_active (fs : FileSystem) (p : Plugin) (h : Heap)
    (hinv : ∃ db, p.db = some db ∧ isOpen h db = true) :
    ∃ db, (loadDatabase fs p h).1.db = some db ∧ isOpen (loadDatabase fs p h).2.1 db = true := by
  obtain ⟨db, hdb, hopen⟩ := hinv
  cases hfs : fs p.config.DBPath with
  | error err =>
    rw [loadDatabase_error fs p h err hfs]
    exact ⟨db, hdb, hopen⟩
  | ok data =>
    rw [loadDatabase_ok fs p h data hfs]
    refine ⟨h.length, rfl, ?_⟩
    simp only [hdb]
    exact isOpen_new h data db (isOpen_lt h db hopen)

/-- A load leaves closed readers closed. -/
theorem loadDatabase_closed_mono (fs : FileSystem) (p : Plugin) (h : Heap) (b : Nat)
    (hb : isClosed h b = true) : isClosed (loadDatabase fs p h).2.1 b = true := by
  cases hfs : fs p.config.DBPath with
  | error err =>
    rw [loadDatabase_error fs p h err hfs]
    exact hb
  | ok data =>
    rw [loadDatabase_ok fs p h data hfs]
    cases p.db with
    | none => exact isClosed_append h _ b hb
    | some old => exact isClosed_readerClose _ old b (isClosed_append h _ b hb)

/-- A load keeps the active database or closes it. -/
theorem loadDatabase_old (fs : FileSystem) (p : Plugin) (h : Heap) (b : Nat)
    (hdb : p.db = some b) (hopen : isOpen h b = true) :
    (loadDatabase fs p h).1.db = some b ∨ isClosed (loadDatabase fs p h).2.1 b = true := by
  cases hfs : fs p.config.DBPath with
  | error err =>
    rw [loadDatabase_error fs p h err hfs]
    exact Or.inl hdb
  | ok data =>
    rw [loadDatabase_ok fs p h data hfs]
    right
    simp only [hdb]
    apply isClosed_readerClose_self
    have := isOpen_lt h b hopen
    simp
    omega

theorem refresh_cons (fs : FileSystem) (rest : List FileSystem) (s : Plugin × Heap) :
    refresh (fs :: rest) s =
      refresh rest ((loadDatabase fs s.1 s.2).1, (loadDatabase fs s.1 s.2).2.1) := by
  simp [refresh]

theorem refresh_append (t1 t2 : List FileSystem) (s : Plugin × Heap) :
    refresh (t1 ++ t2) s = refresh t2 (refresh t1 s) := by
  simp [refresh, List.foldl_append]

theorem refresh_active (ticks : List FileSystem) (s : Plugin × Heap)
    (hinv : ∃ db, s.1.db = some db ∧ isOpen s.2 db = true) :
    ∃ db, (refresh ticks s).1.db = some db ∧ isOpen (refresh ticks s).2 db = true := by
  induction ticks generalizing s with
  | nil => exact hinv
  | cons fs rest ih =>
    rw [refresh_cons]
    exact ih _ (loadDatabase_active fs s.1 s.2 hinv)

theorem refresh_closed_mono (ticks : List FileSystem) (s : Plugin × Heap) (b : Nat)
    (hb : isClosed s.2 b = true) : isClosed (refresh ticks s).2 b = true := by
  induction ticks generalizing s with
  | nil => exact hb
  | cons fs rest ih =>
    rw [refresh_cons]
    exact ih _ (loadDatabase_closed_mono fs s.1 s.2 b hb)

theorem refresh_old (ticks : List FileSystem) (s : Plugin × Heap) (b : Nat)
    (hdb : s.1.db = some b) (hopen : isOpen s.2 b = true) :
    (refresh ticks s).1.db = some b ∨ isClosed (refresh ticks s).2 b = true := by
  induction ticks generalizing s with
  | nil => exact Or.inl hdb
  | cons fs rest ih =>
    rw [refresh_cons]
    rcases loadDatabase_old fs s.1 s.2 b hdb hopen with hsame | hclosed
    · have hact := loadDatabase_active fs s.1 s.2 ⟨b, hdb, hopen⟩
      obtain ⟨db, h1, h2⟩ := hact
      rw [hsame] at h1
      cases h1
      exact ih _ hsame h2
    · exact Or.inr (refresh_closed_mono rest _ b hclosed)

theorem New_active (L : Lib) (fs : FileSystem) (h h1 : Heap) (next : Handler) (cfg : Config)
    (name : GoString) (p : Plugin) (hNew : New L fs h next cfg name = (.ok p, h1)) :
    ∃ db, p.db = some db ∧ isOpen h1 db = true := by
  obtain ⟨_, _, ⟨data, _, hh⟩, _, _, _, _, _, hdb⟩ := New_ok L fs h h1 next cfg name p hNew
  refine ⟨h.length, hdb, ?_⟩
  rw [hh]
  simp [isOpen]

/-- What `New` returns on an invalid configuration or a database that does not
open: an error and no handler, for an empty list of countries, for a mode that
is neither `blacklist` nor `whitelist`, for a database that fails to open, and
for an update interval `time.ParseDuration` rejects. -/
theorem New_rejects (L : Lib) (fs : FileSystem) (h : Heap) (next : Handler) (cfg : Config)
    (name : GoString)
    (hbad : cfg.Countries = [] ∨ (cfg.Mode ≠ str "blacklist" ∧ cfg.Mode ≠ str "whitelist") ∨
      (∃ err, fs cfg.DBPath = .error err) ∨
      (∃ err, L.parseDuration cfg.UpdateInterval = .error err)) :
    ∃ err, (New L fs h next cfg name).1 = .error err := by
  unfold New
  split
  · exact ⟨_, rfl⟩
  rename_i hc
  split
  · exact ⟨_, rfl⟩
  rename_i hm
  cases hfs : fs cfg.DBPath with
  | error e =>
    simp only [loadDatabase, geoip2Open, hfs]
    exact ⟨_, rfl⟩
  | ok data =>
    simp only [loadDatabase, geoip2Open, hfs]
    cases hd : L.parseDuration cfg.UpdateInterval with
    | error e => exact ⟨_, rfl⟩
    | ok d =>
      exfalso
      rcases hbad with h1 | h2 | ⟨e, h3⟩ | ⟨e, h4⟩
      · exact hc (by simp [h1])
      · exact hm h2
      · rw [hfs] at h3
        exact Except.noConfusion h3
      · rw [hd] at h4
        exact Except.noConfusion h4

/-- C7, on the code: on a configuration that is valid but for its update
interval `0s` (or `-1h`), which `time.ParseDuration` parses without error to a
duration that is not positive, `New` opens the database and then panics in
`time.NewTicker`; it returns neither an error nor a handler. -/
theorem New_nonpositive_interval_panics :
    (New sampleLib sampleFiles [] ⟨1⟩ { sampleConfig with UpdateInterval := str "0s" }
      (str "geoip")).1 = .panicked (str "non-positive interval for NewTicker") ∧
    (New sampleLib sampleFiles [] ⟨1⟩ { sampleConfig with UpdateInterval := str "-1h" }
      (str "geoip")).1 = .panicked (str "non-positive interval for NewTicker") ∧
    (∀ err, (New sampleLib sampleFiles [] ⟨1⟩ { sampleConfig with UpdateInterval := str "0s" }
      (str "geoip")).1 ≠ .error err) ∧
    (New sampleLib sampleFiles [] ⟨1⟩ { sampleConfig with UpdateInterval := str "0s" }
      (str "geoip")).2.length = 1 := by
  refine ⟨by decide, by decide, ?_, by decide⟩
  intro err
  have h0 : (New sampleLib sampleFiles [] ⟨1⟩ { sampleConfig with UpdateInterval := str "0s" }
      (str "geoip")).1 = .panicked (str "non-positive interval for NewTicker") := by decide
  rw [h0]
  exact fun h => Outcome.noConfusion h

/-- C8: when `loadDatabase` fails to open the file of a plugin with an active,
open database, it returns an error and changes neither the plugin nor the
heap: the active database is the same reader, still open, and every lookup in
it answers as before.  The refresh loop `updateDatabase` goes on after such a
failure: it prints the error and handles the remaining ticks from the unchanged
state, so that a database that opens on the next tick becomes the active
one. -/
theorem loadDatabase_failure_keeps_database (fs : FileSystem) (p : Plugin) (h : Heap)
    (db : Nat) (err : GoError) (hdb : p.db = some db) (hopen : isOpen h db = true)
    (hfail : fs p.config.DBPath = .error err) :
    loadDatabase fs p h = (p, h, some ⟨str "error opening database: " ++ err.msg⟩) ∧
    (loadDatabase fs p h).1.db = some db ∧
    isOpen (loadDatabase fs p h).2.1 db = true ∧
    (∀ ip, readerCountry (loadDatabase fs p h).2.1 db ip = readerCountry h db ip) ∧
    (∀ (rest : List FileSystem) (out : List GoString) (t : Int), p.updateTicker = some t →
      updateDatabase (fs :: rest) p h out =
        updateDatabase rest p h
          (out ++ [str "Error updating database: " ++
            (str "error opening database: " ++ err.msg) ++ str "\n"])) ∧
    (∀ (fs2 : FileSystem) (data : DBData) (out : List GoString) (t : Int),
      p.updateTicker = some t → fs2 p.config.DBPath = .ok data →
      updateDatabase [fs, fs2] p h out =
        .ok ({ p with db := some h.length },
          readerClose (h ++ [{ data := data, closed := false }]) db,
          out ++ [str "Error updating database: " ++
            (str "error opening database: " ++ err.msg) ++ str "\n"])) := by
  have hl := loadDatabase_error fs p h err hfail
  refine ⟨hl, ?_, ?_, ?_, ?_, ?_⟩
  · rw [hl]; exact hdb
  · rw [hl]; exact hopen
  · intro ip; rw [hl]
  · intro rest out t ht
    simp only [updateDatabase, ht, List.foldl_cons, hl]
  · intro fs2 data out t ht hok
    have hl2 := loadDatabase_ok fs2 p h data hok
    simp only [updateDatabase, ht, List.foldl_cons, List.foldl_nil, hl, hl2, hdb]

/-- Witness of C8 on the sample plugin: a load while the files are missing
leaves the plugin and the heap as they were. -/
theorem loadDatabase_failure_keeps_database_witness :
    loadDatabase noFiles samplePlugin sampleHeap =
      (samplePlugin, sampleHeap,
        some ⟨str "error opening database: " ++ str "open: no such file or directory"⟩) :=
  (loadDatabase_failure_keeps_database noFiles samplePlugin sampleHeap 0
    ⟨str "open: no such file or directory"⟩ rfl (by decide) rfl).1

/-- C9: in every state reached from a successful `New` by a sequence of
`loadDatabase` calls, failing or not, the plugin has an active database, this
reader exists in the heap and is open, and every reader that was active at an
earlier point of the sequence is either still the active one or has been
closed.  So a lookup in the active database answers from its data, and
`ServeHTTP` never meets a nil or closed database. -/
theorem active_database_always_open (L : Lib) (fs : FileSystem) (h0 h1 : Heap)
    (next : Handler) (cfg : Config) (name : GoString) (p0 : Plugin)
    (ticks : List FileSystem) (hNew : New L fs h0 next cfg name = (.ok p0, h1)) :
    ∃ db obj, (refresh ticks (p0, h1)).1.db = some db ∧
      (refresh ticks (p0, h1)).2.get? db = some obj ∧ obj.closed = false ∧
      (∀ (ticks1 ticks2 : List FileSystem) (old : Nat), ticks = ticks1 ++ ticks2 →
        (refresh ticks1 (p0, h1)).1.db = some old →
        old = db ∨ isClosed (refresh ticks (p0, h1)).2 old = true) ∧
      (∀ ip, readerCountry (refresh ticks (p0, h1)).2 db ip = obj.data ip) ∧
      (∀ (L2 : Lib) (rw : ResponseWriter) (req : Request) (msg : GoString),
        ServeHTTP L2 (refresh ticks (p0, h1)).1 (refresh ticks (p0, h1)).2 rw req ≠
          .panicked msg) := by
  have hinit := New_active L fs h0 h1 next cfg name p0 hNew
  obtain ⟨db, hdb, hopen⟩ := refresh_active ticks (p0, h1) hinit
  have hget : ∃ obj, (refresh ticks (p0, h1)).2.get? db = some obj ∧ obj.closed = false := by
    unfold isOpen at hopen
    cases hg : (refresh ticks (p0, h1)).2.get? db with
    | none =>
      rw [hg] at hopen
      exact absurd hopen (by simp)
    | some obj =>
      rw [hg] at hopen
      refine ⟨obj, rfl, ?_⟩
      simpa using hopen
  obtain ⟨obj, hobj, hnc⟩ := hget
  refine ⟨db, obj, hdb, hobj, hnc, ?_, ?_, ?_⟩
  · intro ticks1 ticks2 old hsplit hold
    obtain ⟨old2, ho1, ho2⟩ := refresh_active ticks1 (p0, h1) hinit
    rw [hold] at ho1
    cases ho1
    have := refresh_old ticks2 (refresh ticks1 (p0, h1)) old hold ho2
    rw [← refresh_append, ← hsplit] at this
    rcases this with hsame | hclosed
    · left
      rw [hdb] at hsame
      cases hsame
      rfl
    · exact Or.inr hclosed
  · intro ip
    unfold readerCountry
    rw [hobj]
    simp [hnc]
  · intro L2 rw req msg
    unfold ServeHTTP
    cases getClientIP L2 (refresh ticks (p0, h1)).1.config.TrustHeaders req with
    | none => exact fun h => Outcome.noConfusion h
    | some ip =>
      simp only [hdb]
      cases readerCountry (refresh ticks (p0, h1)).2 db ip with
      | error e => exact fun h => Outcome.noConfusion h
      | ok record =>
        simp only []
        split_ifs <;> exact fun h => Outcome.noConfusion h

/-- Witness of C9 on the sample plugin: after a failed load and two successful
ones the active database is the reader at address 2, and the readers at
addresses 0 and 1, active before it, are closed. -/
theorem active_database_always_open_witness :
    ∃ db obj, (refresh [noFiles, sampleFiles, sampleFiles] (samplePlugin, sampleHeap)).1.db
        = some db ∧
      (refresh [noFiles, sampleFiles, sampleFiles] (samplePlugin, sampleHeap)).2.get? db
        = some obj ∧ obj.closed = false ∧
      (∀ (ticks1 ticks2 : List FileSystem) (old : Nat),
        [noFiles, sampleFiles, sampleFiles] = ticks1 ++ ticks2 →
        (refresh ticks1 (samplePlugin, sampleHeap)).1.db = some old →
        old = db ∨
          isClosed (refresh [noFiles, sampleFiles, sampleFiles] (samplePlugin, sampleHeap)).2 old
            = true) ∧
      (∀ ip, readerCountry
        (refresh [noFiles, sampleFiles, sampleFiles] (samplePlugin, sampleHeap)).2 db ip
          = obj.data ip) ∧
      (∀ (L2 : Lib) (rw : ResponseWriter) (req : Request) (msg : GoString),
        ServeHTTP L2 (refresh [noFiles, sampleFiles, sampleFiles] (samplePlugin, sampleHeap)).1
          (refresh [noFiles, sampleFiles, sampleFiles] (samplePlugin, sampleHeap)).2 rw req ≠
          .panicked msg) :=
  active_database_always_open sampleLib sampleFiles [] sampleHeap ⟨1⟩ sampleConfig (str "geoip")
    samplePlugin [noFiles, sampleFiles, sampleFiles] rfl

end Geoip
